import Mathlib

/-! CardEclipse upload-and-review client: a shallow embedding of `frontend/script.js`.

The page keeps four module variables (`files`, `isProcessing`, `allResults`,
`stats`) and a handful of DOM elements.  They are gathered in one record,
`Session`, and every function of the script becomes a function from sessions to
sessions (plus the request it issues, when it issues one).

Conventions of the embedding:

* a `File` of the browser is the record of the three properties the script
  reads: `name`, `size` (a non-negative integer) and `type`;
* `forEach` loops that push onto local arrays are left folds whose step pushes
  at the end of the accumulator;
* `showToast` appends the notification to the session's list of toasts (the
  styling and the timers that remove the element again are not part of it);
* an element's `style.display` is recorded as a flag: shown or not;
* markup produced by template strings is kept as structured data (a card with a
  title, a badge and field rows) instead of an HTML string;
* `processFiles` is `async`: the part that runs up to the `await fetch` is
  `processFiles`, the continuation after the `await` is `processFilesResume`;
* a `TypeError` raised by reading a property of `undefined` is an explicit
  outcome of the function that raises it.
-/

namespace CardEclipse

/-! ## Data model -/

/-- What the script reads of a browser `File`. -/
structure PendingFile where
  name : String
  size : Nat
  type : String
deriving DecidableEq, Repr

/-- The `data` object of a successful extraction. -/
structure CardData where
  name : Option String
  title : Option String
  company : Option String
  email : Option String
  phoneNumbers : Option (List String)
  website : Option String
  address : Option String
  tokens : Option Nat
deriving DecidableEq, Repr

/-- One per-file result of the backend. -/
structure ExtractionResult where
  success : Bool
  filename : Option String
  model_used : Option String
  data : Option CardData
  error : Option String
deriving DecidableEq, Repr

/-- The JSON object a submission answers with: the object itself read as a
result, and its `results` property when it has one. -/
structure Response where
  self : ExtractionResult
  results : Option (List ExtractionResult)
deriving DecidableEq, Repr

/-- The module variable `stats`. -/
structure Stats where
  totalCards : Nat
  successfulCards : Nat
  tokensUsed : Nat
deriving DecidableEq, Repr

/-- A notification: the two arguments of `showToast`. -/
structure Toast where
  message : String
  type : String
deriving DecidableEq, Repr

/-- An entry of the local array `skippedFiles` of `handleFiles`. -/
structure SkippedFile where
  name : String
  reason : String
deriving DecidableEq, Repr

/-- A row of a rendered card: the text of its label, its icon and its value. -/
structure FieldRow where
  labelText : String
  icon : String
  value : String
deriving DecidableEq, Repr

/-- The body of a rendered card: field rows on success, a message on failure. -/
inductive CardBody where
  | content (rows : List FieldRow)
  | errorMessage (text : String)
deriving DecidableEq, Repr

/-- One `result-card` of the results grid. -/
structure ResultCard where
  title : String
  badge : String
  body : CardBody
deriving DecidableEq, Repr

/-- A value appended to a `FormData`. -/
inductive FormValue where
  | file (f : PendingFile)
  | text (s : String)
deriving DecidableEq, Repr

/-- The body of a request. -/
inductive Body where
  | formData (fields : List (String × FormValue))
  | json (results : List ExtractionResult)
deriving DecidableEq, Repr

/-- A call of `fetch`. -/
structure Request where
  url : String
  method : String
  body : Body
deriving DecidableEq, Repr

/-- The module variables and the DOM state the script reads and writes. -/
structure Session where
  files : List PendingFile
  isProcessing : Bool
  allResults : List ExtractionResult
  stats : Stats
  processBtnDisabled : Bool
  filesSectionShown : Bool
  resultsSectionShown : Bool
  downloadSectionShown : Bool
  loadingOverlayShown : Bool
  resultsGrid : List ResultCard
  modelValue : String
  toasts : List Toast
deriving DecidableEq, Repr

def API_BASE_URL : String := "http://localhost:5000"

/-- The session when the script has just been loaded: the module variables have
their initial values; what the markup says about the DOM elements is a
parameter. -/
def Session.initial (btnDisabled : Bool) (model : String) : Session :=
  { files := []
    isProcessing := false
    allResults := []
    stats := { totalCards := 0, successfulCards := 0, tokensUsed := 0 }
    processBtnDisabled := btnDisabled
    filesSectionShown := false
    resultsSectionShown := false
    downloadSectionShown := false
    loadingOverlayShown := false
    resultsGrid := []
    modelValue := model
    toasts := [] }

/-! ## Small DOM helpers -/

def showToast (s : Session) (message : String) (type : String) : Session :=
  { s with toasts := s.toasts ++ [{ message := message, type := type }] }

def showLoading (s : Session) : Session :=
  { s with loadingOverlayShown := true }

def hideLoading (s : Session) : Session :=
  { s with loadingOverlayShown := false }

/-- The list markup is a function of `files`; only the section's visibility is
kept. -/
def updateFilesList (s : Session) : Session :=
  if s.files.length = 0 then { s with filesSectionShown := false }
  else { s with filesSectionShown := true }

def updateProcessButton (s : Session) : Session :=
  { s with processBtnDisabled := (s.files.length == 0) || s.isProcessing }

/-! ## File intake -/

def validTypes : List String :=
  ["image/jpeg", "image/jpg", "image/png", "application/pdf"]

def maxSize : Nat := 50 * 1024 * 1024

def isValidType (file : PendingFile) : Bool := validTypes.contains file.type

def isValidSize (file : PendingFile) : Bool := decide (file.size ≤ maxSize)

/-- The reason recorded for a file that fails validation. -/
def skipReason (file : PendingFile) : String :=
  if !isValidType file then "Invalid file type" else "File too large (>50MB)"

/-- Body of the first `forEach` of `handleFiles`; the accumulator is the pair
`(validFiles, skippedFiles)`. -/
def validateStep (acc : List PendingFile × List SkippedFile) (file : PendingFile) :
    List PendingFile × List SkippedFile :=
  if isValidType file && isValidSize file then
    (acc.1 ++ [file], acc.2)
  else
    (acc.1, acc.2 ++ [{ name := file.name, reason := skipReason file }])

/-- The first loop of `handleFiles`: `(validFiles, skippedFiles)`. -/
def validateFiles (newFiles : List PendingFile) : List PendingFile × List SkippedFile :=
  newFiles.foldl validateStep ([], [])

/-- The test `files.some(existingFile => ...)` of the duplicate check. -/
def isDuplicate (files : List PendingFile) (file : PendingFile) : Bool :=
  files.any (fun existingFile => existingFile.name == file.name && existingFile.size == file.size)

/-- Body of the second `forEach` of `handleFiles`; the accumulator is the pair
`(duplicateFiles, newValidFiles)`. -/
def duplicateStep (files : List PendingFile) (acc : List String × List PendingFile)
    (file : PendingFile) : List String × List PendingFile :=
  if isDuplicate files file then (acc.1 ++ [file.name], acc.2)
  else (acc.1, acc.2 ++ [file])

/-- The second loop of `handleFiles`: `(duplicateFiles, newValidFiles)`. -/
def checkDuplicates (files : List PendingFile) (validFiles : List PendingFile) :
    List String × List PendingFile :=
  validFiles.foldl (duplicateStep files) ([], [])

/-- The files `handleFiles` adds to the pending list: the local array
`newValidFiles`. -/
def newValidFiles (files newFiles : List PendingFile) : List PendingFile :=
  (checkDuplicates files (validateFiles newFiles).1).2

/-- The text of the toast about skipped files. -/
def skippedToast (skippedFiles : List SkippedFile) : String :=
  toString skippedFiles.length ++ " file(s) skipped: " ++
    ", ".intercalate (skippedFiles.map (fun f => f.name ++ " (" ++ f.reason ++ ")"))

def handleFiles (s : Session) (newFiles : List PendingFile) : Session :=
  let validFiles := (validateFiles newFiles).1
  let skippedFiles := (validateFiles newFiles).2
  let s1 := if skippedFiles.length > 0 then showToast s (skippedToast skippedFiles) "error" else s
  let duplicateFiles := (checkDuplicates s1.files validFiles).1
  let newValidFiles := (checkDuplicates s1.files validFiles).2
  let s2 :=
    if duplicateFiles.length > 0 then
      showToast s1 (toString duplicateFiles.length ++ " duplicate file(s) skipped") "error"
    else s1
  if newValidFiles.length > 0 then
    showToast
      (updateProcessButton (updateFilesList { s2 with files := s2.files ++ newValidFiles }))
      (toString newValidFiles.length ++ " file(s) added successfully") "success"
  else s2

/-- The array method `filter((_, i) => i !== index)`. -/
def removeAt (index : Nat) : List PendingFile → Nat → List PendingFile
  | [], _ => []
  | f :: fs, i => if i ≠ index then f :: removeAt index fs (i + 1) else removeAt index fs (i + 1)

def removeFile (s : Session) (index : Nat) : Session :=
  updateProcessButton (updateFilesList { s with files := removeAt index s.files 0 })

def clearAll (s : Session) : Session :=
  showToast
    { updateProcessButton (updateFilesList { s with files := [], allResults := [] }) with
      resultsSectionShown := false
      downloadSectionShown := false }
    "All files cleared" "success"

/-! ## Submission -/

/-- How a call ends: it returns, or an exception leaves it. In both cases the
session is the one the statements executed so far have produced. -/
inductive Outcome where
  | returned (s : Session)
  | threw (s : Session) (message : String)
deriving DecidableEq, Repr

/-- The session at the end of a call, however it ended. -/
def Outcome.session : Outcome → Session
  | .returned s => s
  | .threw s _ => s

/-- The message of the `TypeError` of reading `property` of `undefined`; its
wording is the engine's, the embedding fixes one. -/
def typeErrorMessage (property : String) : String :=
  "Cannot read properties of undefined (reading " ++ property ++ ")"

/-- Truthiness of a string property that may be absent. -/
def truthyString : Option String → Bool
  | some v => v != ""
  | none => false

/-- Truthiness of a numeric property that may be absent. -/
def truthyNumber : Option Nat → Bool
  | some n => n != 0
  | none => false

/-- A property inside a template string: absent reads `undefined`. -/
def interpolate : Option String → String
  | some v => v
  | none => "undefined"

/-- The expression `data.results || [data]`. -/
def resultsArray (data : Response) : List ExtractionResult :=
  match data.results with
  | some results => results
  | none => [data.self]

/-- The row of a string field, when the field is truthy. -/
def stringRow (labelText icon : String) (field : Option String) : List FieldRow :=
  if truthyString field then [{ labelText := labelText, icon := icon, value := interpolate field }]
  else []

/-- The rows of `result-content`, in the order of the template. -/
def fieldRows (d : CardData) : List FieldRow :=
  stringRow "Name" "fas fa-user" d.name ++
  stringRow "Title" "fas fa-briefcase" d.title ++
  stringRow "Company" "fas fa-building" d.company ++
  stringRow "Email" "fas fa-envelope" d.email ++
  (match d.phoneNumbers with
    | some numbers =>
      if numbers.length > 0 then
        [{ labelText := "Phone", icon := "fas fa-phone", value := ", ".intercalate numbers }]
      else []
    | none => []) ++
  stringRow "Website" "fas fa-globe" d.website ++
  stringRow "Address" "fas fa-map-marker-alt" d.address ++
  (match d.tokens with
    | some n =>
      if truthyNumber (some n) then
        [{ labelText := "Tokens Used", icon := "fas fa-microchip", value := toString n }]
      else []
    | none => [])

/-- The callback of `resultsArray.map` in `displayResults`; `none` is the
`TypeError` of `result.data.name` when a successful result has no `data`. -/
def renderCard (result : ExtractionResult) (index : Nat) : Option ResultCard :=
  let title :=
    if truthyString result.filename then interpolate result.filename
    else "Card " ++ toString (index + 1)
  let badge := interpolate result.model_used
  if result.success then
    match result.data with
    | some d => some { title := title, badge := badge, body := .content (fieldRows d) }
    | none => none
  else
    some { title := title, badge := badge,
           body := .errorMessage
             (if truthyString result.error then interpolate result.error
              else "Failed to process this card") }

/-- The call `resultsArray.map((result, index) => ...)` from position `index` on. -/
def renderCards : List ExtractionResult → Nat → Option (List ResultCard)
  | [], _ => some []
  | result :: rest, index =>
    match renderCard result index with
    | none => none
    | some card =>
      match renderCards rest (index + 1) with
      | none => none
      | some cards => some (card :: cards)

def displayResults (s : Session) (data : Response) : Outcome :=
  if !data.self.success then
    .returned (showToast s ("Processing failed: " ++ interpolate data.self.error) "error")
  else
    let s1 := { s with resultsSectionShown := true }
    let s2 := { s1 with allResults := s1.allResults ++ resultsArray data }
    match renderCards (resultsArray data) 0 with
    | none => .threw s2 (typeErrorMessage "name")
    | some cards =>
      let s3 := { s2 with resultsGrid := cards }
      let successfulResults := (resultsArray data).filter (fun r => r.success)
      let s4 := if successfulResults.length > 0 then { s3 with downloadSectionShown := true } else s3
      .returned
        (showToast s4
          ("Successfully processed " ++ toString successfulResults.length ++ " card(s)") "success")

/-- The `forEach` of `updateStats` over the results still to visit: the new
`stats.tokensUsed`, and whether `result.data.tokens` raised a `TypeError`. -/
def addTokens : List ExtractionResult → Nat → Nat × Bool
  | [], tokensUsed => (tokensUsed, false)
  | result :: rest, tokensUsed =>
    if result.success then
      match result.data with
      | none => (tokensUsed, true)
      | some d =>
        if truthyNumber d.tokens then addTokens rest (tokensUsed + d.tokens.getD 0)
        else addTokens rest tokensUsed
    else addTokens rest tokensUsed

/-- The three text nodes written at the end are functions of `stats`; the
embedding keeps `stats`. -/
def updateStats (s : Session) (data : Response) : Outcome :=
  let results := resultsArray data
  let stats1 : Stats := { s.stats with totalCards := s.stats.totalCards + results.length }
  let stats2 : Stats :=
    { stats1 with
      successfulCards := stats1.successfulCards + (results.filter (fun r => r.success)).length }
  let walked := addTokens results stats2.tokensUsed
  let s1 := { s with stats := { stats2 with tokensUsed := walked.1 } }
  if walked.2 then .threw s1 (typeErrorMessage "tokens") else .returned s1

/-- What the awaited `fetch(...)` followed by `response.json()` gives: the
parsed body, or the message of the error it rejects with. -/
inductive FetchOutcome where
  | responded (data : Response)
  | failed (message : String)
deriving DecidableEq, Repr

/-- The `forEach` that appends every file under the key `images`. -/
def appendImages (files : List PendingFile) : List (String × FormValue) :=
  files.foldl (fun formData file => formData ++ [("images", FormValue.file file)]) []

/-- The part of `processFiles` that runs before the `await`: the session it
leaves and the request it has issued, if any. -/
def processFiles (s : Session) : Session × Option Request :=
  if s.files.length = 0 then (s, none)
  else
    let s1 := showLoading (updateProcessButton { s with isProcessing := true })
    let formData :=
      (if h : s1.files.length = 1 then
        [("image", FormValue.file (s1.files.get ⟨0, by omega⟩))]
      else appendImages s1.files) ++ [("model", FormValue.text s1.modelValue)]
    let endpoint := if s1.files.length = 1 then "/api/single" else "/api/batch"
    (s1, some { url := API_BASE_URL ++ endpoint, method := "POST", body := .formData formData })

/-- The `finally` block of `processFiles`. -/
def processFilesFinally (s : Session) : Session :=
  hideLoading (updateProcessButton { s with isProcessing := false })

/-- The part of `processFiles` that runs once the awaited request has settled:
the rest of the `try` block, the `catch` block, then the `finally` block. -/
def processFilesResume (s : Session) (settled : FetchOutcome) : Session :=
  let caught (s : Session) (message : String) : Session :=
    showToast s ("Processing failed: " ++ message) "error"
  processFilesFinally
    (match settled with
    | .failed message => caught s message
    | .responded data =>
      match displayResults s data with
      | .threw s1 message => caught s1 message
      | .returned s1 =>
        match updateStats s1 data with
        | .threw s2 message => caught s2 message
        | .returned s2 => s2)

/-! ## Export -/

/-- The common body of `downloadCSV` and `downloadExcel` up to the call of
`fetch`; the two differ in the endpoint only. -/
def download (endpoint : String) (s : Session) : Session × Option Request :=
  let successfulResults := s.allResults.filter (fun r => r.success)
  if successfulResults.length = 0 then
    (showToast s "No data to export" "error", none)
  else
    (s, some { url := API_BASE_URL ++ endpoint, method := "POST",
               body := .json successfulResults })

def downloadCSV (s : Session) : Session × Option Request :=
  download "/api/download/csv" s

def downloadExcel (s : Session) : Session × Option Request :=
  download "/api/download/excel" s

/-- The promise chain after the `fetch` of an export: a toast that names the
format (`CSV` or `Excel`), or the message of the failure. -/
def downloadSettled (format : String) (s : Session) (failure : Option String) : Session :=
  match failure with
  | none => showToast s (format ++ " file downloaded successfully") "success"
  | some message => showToast s ("Download failed: " ++ message) "error"

/-! ## The page as a transition system -/

/-- The session together with the submissions whose `fetch` has not settled. -/
structure Page where
  session : Session
  inFlight : List Request
deriving DecidableEq, Repr

/-- What can happen to the page: the handlers the script registers, and the
settling of a request. -/
inductive Event where
  | filesChosen (newFiles : List PendingFile)
  | removeClicked (index : Nat)
  | clearClicked
  | processClicked
  | submissionSettled (settled : FetchOutcome)
  | modelSelected (model : String)
  | csvClicked
  | excelClicked
  | exportSettled (format : String) (failure : Option String)
deriving DecidableEq, Repr

/-- One event. A click on the process button reaches `processFiles` only when
the button is not disabled; a submission settles only when one is in flight. -/
def step (p : Page) : Event → Page
  | .filesChosen newFiles => { p with session := handleFiles p.session newFiles }
  | .removeClicked index => { p with session := removeFile p.session index }
  | .clearClicked => { p with session := clearAll p.session }
  | .processClicked =>
    if p.session.processBtnDisabled then p
    else
      match processFiles p.session with
      | (s, some request) => { session := s, inFlight := p.inFlight ++ [request] }
      | (s, none) => { p with session := s }
  | .submissionSettled settled =>
    match p.inFlight with
    | [] => p
    | _ :: rest => { session := processFilesResume p.session settled, inFlight := rest }
  | .modelSelected model => { p with session := { p.session with modelValue := model } }
  | .csvClicked => { p with session := (downloadCSV p.session).1 }
  | .excelClicked => { p with session := (downloadExcel p.session).1 }
  | .exportSettled format failure =>
    { p with session := downloadSettled format p.session failure }

/-- The page after a sequence of events. -/
def run (p : Page) (events : List Event) : Page := events.foldl step p

/-- The page when the script has just been loaded. -/
def Page.initial (btnDisabled : Bool) (model : String) : Page :=
  { session := Session.initial btnDisabled model, inFlight := [] }

/-! ## Sample inputs -/

/-- A 60MB PNG. -/
def card60MB : PendingFile :=
  { name := "card.png", size := 60 * 1024 * 1024, type := "image/png" }

/-- A 2MB PNG. -/
def card2MB : PendingFile :=
  { name := "card.png", size := 2 * 1024 * 1024, type := "image/png" }

/-- The page after one 2MB PNG has been chosen and the process button clicked:
its submission is in flight. -/
def pageInFlight : Page :=
  run (Page.initial false "auto") [.filesChosen [card2MB], .processClicked]

/-- A successful result that reports 120 tokens. -/
def cardResult : ExtractionResult :=
  { success := true, filename := some "card.png", model_used := some "nvidia",
    data := some { name := some "Ada Lovelace", title := none, company := none, email := none,
                   phoneNumbers := none, website := none, address := none, tokens := some 120 },
    error := none }

/-- A failed result. -/
def failedResult : ExtractionResult :=
  { success := false, filename := some "blurred.png", model_used := some "nvidia",
    data := none, error := some "unreadable" }

/-- The answer of `/api/batch` to two files, one read and one not. -/
def batchResponse : Response :=
  { self := { success := true, filename := none, model_used := none, data := none, error := none },
    results := some [cardResult, failedResult] }

/-- The answer of `/api/single` to one file. -/
def singleResponse : Response := { self := cardResult, results := none }

/-- A session whose history holds one result. -/
def sessionWithHistory : Session :=
  (displayResults (Session.initial true "auto") singleResponse).session

/-- The session after one card has been chosen, submitted and answered. -/
def sessionAfterSubmission : Session :=
  (run (Page.initial true "auto")
    [.filesChosen [card2MB], .processClicked,
     .submissionSettled (.responded singleResponse)]).session

/-- A session whose history holds one successful and one failed result. -/
def sessionMixedHistory : Session :=
  (displayResults (Session.initial true "auto") batchResponse).session

/-- A `data` object with every field absent. -/
def bareData : CardData :=
  { name := none, title := none, company := none, email := none, phoneNumbers := none,
    website := none, address := none, tokens := none }

/-- A successful result without a filename and with nothing read from the card. -/
def bareResult : ExtractionResult :=
  { success := true, filename := none, model_used := some "nvidia", data := some bareData,
    error := none }

/-- The answer of `/api/batch` to two files, the second one with nothing read. -/
def bareBatchResponse : Response :=
  { self := { success := true, filename := none, model_used := none, data := none, error := none },
    results := some [cardResult, bareResult] }

/-! # Theorems -/

/-! ## File intake: what the two loops compute -/

theorem validateStep_foldl (newFiles : List PendingFile)
    (acc : List PendingFile × List SkippedFile) :
    newFiles.foldl validateStep acc =
      (acc.1 ++ newFiles.filter (fun f => isValidType f && isValidSize f),
       acc.2 ++ (newFiles.filter (fun f => !(isValidType f && isValidSize f))).map
          (fun f => { name := f.name, reason := skipReason f })) := by
  induction newFiles generalizing acc with
  | nil => simp
  | cons file rest ih =>
    rw [List.foldl_cons, ih]
    cases ht : isValidType file <;> cases hz : isValidSize file <;>
      simp [validateStep, ht, hz, List.filter_cons]

theorem validateFiles_eq (newFiles : List PendingFile) :
    validateFiles newFiles =
      (newFiles.filter (fun f => isValidType f && isValidSize f),
       (newFiles.filter (fun f => !(isValidType f && isValidSize f))).map
          (fun f => { name := f.name, reason := skipReason f })) := by
  simp [validateFiles, validateStep_foldl]

theorem duplicateStep_foldl (files validFiles : List PendingFile)
    (acc : List String × List PendingFile) :
    validFiles.foldl (duplicateStep files) acc =
      (acc.1 ++ (validFiles.filter (fun f => isDuplicate files f)).map (fun f => f.name),
       acc.2 ++ validFiles.filter (fun f => !isDuplicate files f)) := by
  induction validFiles generalizing acc with
  | nil => simp
  | cons file rest ih =>
    rw [List.foldl_cons, ih]
    by_cases h : isDuplicate files file = true
    · simp [duplicateStep, h, List.filter_cons]
    · simp [duplicateStep, h, List.filter_cons]

theorem checkDuplicates_eq (files validFiles : List PendingFile) :
    checkDuplicates files validFiles =
      ((validFiles.filter (fun f => isDuplicate files f)).map (fun f => f.name),
       validFiles.filter (fun f => !isDuplicate files f)) := by
  simp [checkDuplicates, duplicateStep_foldl]

/-! ## What the DOM helpers leave alone -/

@[simp] theorem showToast_files (s : Session) (m t : String) :
    (showToast s m t).files = s.files := rfl

@[simp] theorem showToast_isProcessing (s : Session) (m t : String) :
    (showToast s m t).isProcessing = s.isProcessing := rfl

@[simp] theorem showToast_processBtnDisabled (s : Session) (m t : String) :
    (showToast s m t).processBtnDisabled = s.processBtnDisabled := rfl

@[simp] theorem showToast_allResults (s : Session) (m t : String) :
    (showToast s m t).allResults = s.allResults := rfl

@[simp] theorem showToast_stats (s : Session) (m t : String) :
    (showToast s m t).stats = s.stats := rfl

@[simp] theorem updateFilesList_files (s : Session) : (updateFilesList s).files = s.files := by
  unfold updateFilesList; split <;> rfl

@[simp] theorem updateFilesList_isProcessing (s : Session) :
    (updateFilesList s).isProcessing = s.isProcessing := by
  unfold updateFilesList; split <;> rfl

@[simp] theorem updateFilesList_allResults (s : Session) :
    (updateFilesList s).allResults = s.allResults := by
  unfold updateFilesList; split <;> rfl

@[simp] theorem updateFilesList_stats (s : Session) : (updateFilesList s).stats = s.stats := by
  unfold updateFilesList; split <;> rfl

@[simp] theorem updateProcessButton_files (s : Session) :
    (updateProcessButton s).files = s.files := rfl

@[simp] theorem updateProcessButton_isProcessing (s : Session) :
    (updateProcessButton s).isProcessing = s.isProcessing := rfl

@[simp] theorem updateProcessButton_allResults (s : Session) :
    (updateProcessButton s).allResults = s.allResults := rfl

@[simp] theorem updateProcessButton_stats (s : Session) :
    (updateProcessButton s).stats = s.stats := rfl

@[simp] theorem updateProcessButton_disabled (s : Session) :
    (updateProcessButton s).processBtnDisabled = ((s.files.length == 0) || s.isProcessing) := rfl

theorem handleFiles_files (s : Session) (newFiles : List PendingFile) :
    (handleFiles s newFiles).files = s.files ++ newValidFiles s.files newFiles := by
  have key : ∀ s1 s2 : Session, s1.files = s.files → s2.files = s.files →
      (if (checkDuplicates s1.files (validateFiles newFiles).1).2.length > 0 then
        showToast
          (updateProcessButton (updateFilesList
            { s2 with files := s2.files ++ (checkDuplicates s1.files (validateFiles newFiles).1).2 }))
          (toString (checkDuplicates s1.files (validateFiles newFiles).1).2.length ++
            " file(s) added successfully") "success"
      else s2).files = s.files ++ newValidFiles s.files newFiles := by
    intro s1 s2 h1 h2
    unfold newValidFiles
    rw [h1]
    split
    · simp [h2]
    · rename_i hn
      have : (checkDuplicates s.files (validateFiles newFiles).1).2 = [] :=
        List.length_eq_zero.mp (by omega)
      simp [this, h2]
  have h : ∀ (x : Session) (c : Prop) [Decidable c] (m t : String),
      (if c then showToast x m t else x).files = x.files := by
    intro x c _ m t
    split <;> rfl
  exact key _ _ (h _ _ _ _) ((h _ _ _ _).trans (h _ _ _ _))

theorem isValidType_iff (f : PendingFile) :
    isValidType f = true ↔ f.type ∈ ["image/jpeg", "image/jpg", "image/png", "application/pdf"] := by
  simp [isValidType, validTypes]

theorem isValidSize_iff (f : PendingFile) :
    isValidSize f = true ↔ f.size ≤ 50 * 1024 * 1024 := by
  simp [isValidSize, maxSize]

theorem isDuplicate_iff (files : List PendingFile) (f : PendingFile) :
    isDuplicate files f = true ↔ ∃ e ∈ files, e.name = f.name ∧ e.size = f.size := by
  simp [isDuplicate, List.any_eq_true]

theorem newValidFiles_eq (files newFiles : List PendingFile) :
    newValidFiles files newFiles =
      newFiles.filter (fun f => (isValidType f && isValidSize f) && !isDuplicate files f) := by
  simp [newValidFiles, checkDuplicates_eq, validateFiles_eq, List.filter_filter, Bool.and_comm]

/-- Claim C3. The pending list after `handleFiles` is the pending list before,
followed by the files of the batch that have a valid type, a size within the
limit and no pending file of the same name and size, in batch order; the list
before is a prefix of the list after. -/
theorem accepted_files_appended (s : Session) (newFiles : List PendingFile) :
    (handleFiles s newFiles).files =
      s.files ++ newFiles.filter (fun f =>
        decide (f.type ∈ ["image/jpeg", "image/jpg", "image/png", "application/pdf"]
          ∧ f.size ≤ 50 * 1024 * 1024
          ∧ ¬ ∃ e ∈ s.files, e.name = f.name ∧ e.size = f.size))
    ∧ s.files <+: (handleFiles s newFiles).files := by
  have h : (handleFiles s newFiles).files =
      s.files ++ newFiles.filter (fun f =>
        decide (f.type ∈ ["image/jpeg", "image/jpg", "image/png", "application/pdf"]
          ∧ f.size ≤ 50 * 1024 * 1024
          ∧ ¬ ∃ e ∈ s.files, e.name = f.name ∧ e.size = f.size)) := by
    rw [handleFiles_files, newValidFiles_eq]
    congr 1
    apply List.filter_congr
    intro f _
    rw [Bool.eq_iff_iff]
    simp only [Bool.and_eq_true, Bool.not_eq_true', decide_eq_true_eq, isValidType_iff,
      isValidSize_iff, ← Bool.not_eq_true, isDuplicate_iff]
    tauto
  exact ⟨h, by rw [h]; exact List.prefix_append _ _⟩

theorem toasts_showToast (s : Session) (m t : String) :
    (showToast s m t).toasts = s.toasts ++ [{ message := m, type := t }] := rfl

theorem handleFiles_toast_skipped (s : Session) (newFiles : List PendingFile)
    (h : (validateFiles newFiles).2 ≠ []) :
    { message := skippedToast (validateFiles newFiles).2, type := "error" }
      ∈ (handleFiles s newFiles).toasts := by
  have hpos : (validateFiles newFiles).2.length > 0 := List.length_pos.mpr h
  have h1 : ∀ (x : Session) (c : Prop) [Decidable c] (m t : String) (a : Toast),
      a ∈ x.toasts → a ∈ (if c then showToast x m t else x).toasts := by
    intro x c _ m t a ha
    split
    · simp [toasts_showToast, ha]
    · exact ha
  have h2 : ∀ (x : Session) (c : Prop) [Decidable c] (fs : List PendingFile) (m t : String)
      (a : Toast), a ∈ x.toasts →
      a ∈ (if c then showToast (updateProcessButton (updateFilesList { x with files := fs })) m t
            else x).toasts := by
    intro x c _ fs m t a ha
    split
    · simp only [toasts_showToast, updateProcessButton, updateFilesList]
      split <;> simp [ha]
    · exact ha
  unfold handleFiles
  apply h2
  apply h1
  simp [hpos, toasts_showToast]

theorem handleFiles_toast_duplicates (s : Session) (newFiles : List PendingFile)
    (h : (checkDuplicates s.files (validateFiles newFiles).1).1 ≠ []) :
    { message := toString (checkDuplicates s.files (validateFiles newFiles).1).1.length ++
        " duplicate file(s) skipped", type := "error" } ∈ (handleFiles s newFiles).toasts := by
  have hpos : (checkDuplicates s.files (validateFiles newFiles).1).1.length > 0 :=
    List.length_pos.mpr h
  have h2 : ∀ (x : Session) (c : Prop) [Decidable c] (fs : List PendingFile) (m t : String)
      (a : Toast), a ∈ x.toasts →
      a ∈ (if c then showToast (updateProcessButton (updateFilesList { x with files := fs })) m t
            else x).toasts := by
    intro x c _ fs m t a ha
    split
    · simp only [toasts_showToast, updateProcessButton, updateFilesList]
      split <;> simp [ha]
    · exact ha
  have hf : (if (validateFiles newFiles).2.length > 0 then
      showToast s (skippedToast (validateFiles newFiles).2) "error" else s).files = s.files := by
    split <;> rfl
  unfold handleFiles
  apply h2
  simp only [hf, hpos, if_true, toasts_showToast]
  simp

/-- Claim C1. A file of the batch whose MIME type is not one of the four accepted
types, or whose size exceeds 50*1024*1024 bytes, is skipped by `handleFiles`: the
array `skippedFiles` holds exactly these files, in batch order, with reason
"Invalid file type" when the type is invalid (whatever the size) and
"File too large (>50MB)" when only the size is over the limit, and the error
toast lists them; every file added to the pending list is a file of the batch
with a valid type and a size within the limit; and when every file of the batch
is such a file the pending list is unchanged. -/
theorem invalid_files_rejected (s : Session) (newFiles : List PendingFile) :
    (validateFiles newFiles).2 =
      (newFiles.filter (fun f =>
          decide (f.type ∉ ["image/jpeg", "image/jpg", "image/png", "application/pdf"]
            ∨ 50 * 1024 * 1024 < f.size))).map
        (fun f =>
          { name := f.name
            reason :=
              if f.type ∉ ["image/jpeg", "image/jpg", "image/png", "application/pdf"] then
                "Invalid file type"
              else "File too large (>50MB)" })
    ∧ ((validateFiles newFiles).2 ≠ [] →
        { message := skippedToast (validateFiles newFiles).2, type := "error" }
          ∈ (handleFiles s newFiles).toasts)
    ∧ (∃ added, (handleFiles s newFiles).files = s.files ++ added ∧
        ∀ f ∈ added, f ∈ newFiles
          ∧ f.type ∈ ["image/jpeg", "image/jpg", "image/png", "application/pdf"]
          ∧ f.size ≤ 50 * 1024 * 1024)
    ∧ ((∀ f ∈ newFiles,
          f.type ∉ ["image/jpeg", "image/jpg", "image/png", "application/pdf"]
            ∨ 50 * 1024 * 1024 < f.size) →
        (handleFiles s newFiles).files = s.files) := by
  refine ⟨?_, handleFiles_toast_skipped s newFiles, ?_, ?_⟩
  · rw [validateFiles_eq]
    have hp : (fun f : PendingFile => !(isValidType f && isValidSize f)) =
        (fun f => decide (f.type ∉ ["image/jpeg", "image/jpg", "image/png", "application/pdf"]
            ∨ 50 * 1024 * 1024 < f.size)) := by
      funext f
      rw [Bool.eq_iff_iff]
      simp only [Bool.not_eq_true', decide_eq_true_eq, ← Bool.not_eq_true, Bool.and_eq_true,
        isValidType_iff, isValidSize_iff]
      rw [not_and_or, Nat.not_le]
    rw [hp]
    apply List.map_congr_left
    intro f _
    have : (!isValidType f) = decide
        (f.type ∉ ["image/jpeg", "image/jpg", "image/png", "application/pdf"]) := by
      rw [Bool.eq_iff_iff]
      simp only [Bool.not_eq_true', decide_eq_true_eq, ← Bool.not_eq_true, isValidType_iff]
    simp only [skipReason, this, decide_eq_true_eq]
  · refine ⟨newValidFiles s.files newFiles, handleFiles_files s newFiles, ?_⟩
    intro f hf
    rw [newValidFiles_eq, List.mem_filter] at hf
    simp only [Bool.and_eq_true, isValidType_iff, isValidSize_iff] at hf
    exact ⟨hf.1, hf.2.1.1, hf.2.1.2⟩
  · intro hall
    rw [handleFiles_files, newValidFiles_eq]
    have : newFiles.filter (fun f => (isValidType f && isValidSize f) && !isDuplicate s.files f)
        = [] := by
      rw [List.filter_eq_nil_iff]
      intro f hf
      simp only [Bool.and_eq_true, isValidType_iff, isValidSize_iff]
      have := hall f hf
      intro hc
      rcases this with h | h
      · exact h hc.1.1
      · omega
    rw [this, List.append_nil]

/-- Claim C2. When every file of the batch is valid and has the name and size of
a file already pending, `handleFiles` records every file of the batch in
`duplicateFiles` (its length is the length of the batch, which the error toast
reports) and leaves the pending list unchanged. -/
theorem repeated_files_rejected (s : Session) (newFiles : List PendingFile)
    (h : ∀ f ∈ newFiles,
      f.type ∈ ["image/jpeg", "image/jpg", "image/png", "application/pdf"]
        ∧ f.size ≤ 50 * 1024 * 1024
        ∧ ∃ e ∈ s.files, e.name = f.name ∧ e.size = f.size) :
    (checkDuplicates s.files (validateFiles newFiles).1).1 = newFiles.map (fun f => f.name)
    ∧ (checkDuplicates s.files (validateFiles newFiles).1).1.length = newFiles.length
    ∧ (newFiles ≠ [] →
        { message := toString newFiles.length ++ " duplicate file(s) skipped", type := "error" }
          ∈ (handleFiles s newFiles).toasts)
    ∧ (handleFiles s newFiles).files = s.files := by
  have hv : newFiles.filter (fun f => isValidType f && isValidSize f) = newFiles := by
    rw [List.filter_eq_self]
    intro f hf
    simp only [Bool.and_eq_true, isValidType_iff, isValidSize_iff]
    exact ⟨(h f hf).1, (h f hf).2.1⟩
  have hd : newFiles.filter (fun f => isDuplicate s.files f) = newFiles := by
    rw [List.filter_eq_self]
    intro f hf
    rw [isDuplicate_iff]
    exact (h f hf).2.2
  have h1 : (checkDuplicates s.files (validateFiles newFiles).1).1 =
      newFiles.map (fun f => f.name) := by
    rw [validateFiles_eq, checkDuplicates_eq]
    simp only [hv, hd]
  refine ⟨h1, by rw [h1, List.length_map], ?_, ?_⟩
  · intro hne
    have := handleFiles_toast_duplicates s newFiles (by rw [h1]; simpa using hne)
    rw [h1, List.length_map] at this
    exact this
  · rw [handleFiles_files, newValidFiles_eq]
    have : newFiles.filter (fun f => (isValidType f && isValidSize f) && !isDuplicate s.files f)
        = [] := by
      rw [List.filter_eq_nil_iff]
      intro f hf
      have := (isDuplicate_iff s.files f).mpr (h f hf).2.2
      simp [this]
    rw [this, List.append_nil]

/-- Claim C1 at the batch of one 60MB PNG: it is skipped with reason
"File too large (>50MB)" and the pending list stays as it was. -/
theorem invalid_files_rejected_witness :
    (∀ f ∈ [card60MB],
      f.type ∉ ["image/jpeg", "image/jpg", "image/png", "application/pdf"]
        ∨ 50 * 1024 * 1024 < f.size)
    ∧ (validateFiles [card60MB]).2 =
        [{ name := "card.png", reason := "File too large (>50MB)" }]
    ∧ (handleFiles (Session.initial true "auto") [card60MB]).files =
        (Session.initial true "auto").files :=
  ⟨by decide,
   (invalid_files_rejected (Session.initial true "auto") [card60MB]).1.trans (by decide),
   (invalid_files_rejected (Session.initial true "auto") [card60MB]).2.2.2 (by decide)⟩

/-- Claim C2 after a 2MB PNG has been accepted: a second intake of a 2MB PNG of
the same name is rejected as a duplicate. -/
theorem repeated_files_rejected_witness :
    (handleFiles (Session.initial true "auto") [card2MB]).files = [card2MB]
    ∧ (checkDuplicates (handleFiles (Session.initial true "auto") [card2MB]).files
        (validateFiles [card2MB]).1).1.length = 1
    ∧ (handleFiles (handleFiles (Session.initial true "auto") [card2MB]) [card2MB]).files
        = [card2MB] :=
  have h := repeated_files_rejected (handleFiles (Session.initial true "auto") [card2MB])
    [card2MB] (by decide)
  ⟨by decide, h.2.1, h.2.2.2.trans (by decide)⟩

theorem handleFiles_shape (s : Session) (newFiles : List PendingFile) :
    ∃ toasts : List Toast,
      handleFiles s newFiles =
        if newValidFiles s.files newFiles = [] then { s with toasts := toasts }
        else
          { s with
            files := s.files ++ newValidFiles s.files newFiles
            filesSectionShown := true
            processBtnDisabled := s.isProcessing
            toasts := toasts } := by
  have key : ∀ s2 : Session, (∃ t, s2 = { s with toasts := t }) →
      ∃ toasts : List Toast,
        (if (newValidFiles s.files newFiles).length > 0 then
          showToast
            (updateProcessButton (updateFilesList
              { s2 with files := s2.files ++ newValidFiles s.files newFiles }))
            (toString (newValidFiles s.files newFiles).length ++
              " file(s) added successfully") "success"
        else s2) =
        if newValidFiles s.files newFiles = [] then { s with toasts := toasts }
        else
          { s with
            files := s.files ++ newValidFiles s.files newFiles
            filesSectionShown := true
            processBtnDisabled := s.isProcessing
            toasts := toasts } := by
    rintro s2 ⟨t, rfl⟩
    by_cases hn : newValidFiles s.files newFiles = []
    · exact ⟨t, by simp [hn]⟩
    · have hpos : (newValidFiles s.files newFiles).length > 0 := List.length_pos.mpr hn
      refine ⟨t ++ [{ message := toString (newValidFiles s.files newFiles).length ++
              " file(s) added successfully", type := "success" }], ?_⟩
      simp [hn, hpos, showToast, updateProcessButton, updateFilesList]
  have h1 : ∀ (x : Session) (c : Prop) [Decidable c] (m t : String),
      (∃ u, x = { s with toasts := u }) →
      ∃ u, (if c then showToast x m t else x) = { s with toasts := u } := by
    rintro x c _ m t ⟨u, rfl⟩
    by_cases hc : c
    · exact ⟨u ++ [{ message := m, type := t }], by simp [hc, showToast]⟩
    · exact ⟨u, by simp [hc]⟩
  have hf : (if (validateFiles newFiles).2.length > 0 then
      showToast s (skippedToast (validateFiles newFiles).2) "error" else s).files = s.files := by
    split <;> rfl
  have := key _ (h1 _ ((checkDuplicates s.files (validateFiles newFiles).1).1.length > 0)
    (toString (checkDuplicates s.files (validateFiles newFiles).1).1.length ++
      " duplicate file(s) skipped") "error"
    (h1 s ((validateFiles newFiles).2.length > 0) (skippedToast (validateFiles newFiles).2)
      "error" ⟨s.toasts, rfl⟩))
  unfold handleFiles
  simp only [hf]
  exact this
theorem displayResults_files (s : Session) (data : Response) :
    (displayResults s data).session.files = s.files := by
  unfold displayResults
  split
  · rfl
  · simp only []
    split
    · rfl
    · split <;> rfl

theorem displayResults_stats (s : Session) (data : Response) :
    (displayResults s data).session.stats = s.stats := by
  unfold displayResults
  split
  · rfl
  · simp only []
    split
    · rfl
    · split <;> rfl

theorem updateStats_files (s : Session) (data : Response) :
    (updateStats s data).session.files = s.files := by
  unfold updateStats
  simp only []
  split <;> rfl

theorem processFilesResume_files (s : Session) (settled : FetchOutcome) :
    (processFilesResume s settled).files = s.files := by
  unfold processFilesResume processFilesFinally
  simp only [hideLoading, updateProcessButton_files]
  cases settled with
  | failed message => rfl
  | responded data =>
    simp only []
    have h1 := displayResults_files s data
    cases hd : displayResults s data with
    | threw s1 message =>
      rw [hd] at h1
      simpa using h1
    | returned s1 =>
      rw [hd] at h1
      simp only []
      have h2 := updateStats_files s1 data
      cases hu : updateStats s1 data with
      | threw s2 message =>
        rw [hu] at h2
        simp only [showToast_files]
        exact h2.trans h1
      | returned s2 =>
        rw [hu] at h2
        exact h2.trans h1

theorem processFilesResume_isProcessing (s : Session) (settled : FetchOutcome) :
    (processFilesResume s settled).isProcessing = false := rfl

theorem processFilesResume_processBtnDisabled (s : Session) (settled : FetchOutcome) :
    (processFilesResume s settled).processBtnDisabled = (s.files.length == 0) := by
  have h := processFilesResume_files s settled
  unfold processFilesResume processFilesFinally at *
  simp only [hideLoading, updateProcessButton] at *
  simp [h]

theorem processFiles_files (s : Session) : (processFiles s).1.files = s.files := by
  unfold processFiles
  split <;> rfl

theorem download_fst_files (endpoint : String) (s : Session) :
    (download endpoint s).1.files = s.files := by
  unfold download
  simp only []
  split <;> rfl

theorem download_fst_isProcessing (endpoint : String) (s : Session) :
    (download endpoint s).1.isProcessing = s.isProcessing := by
  unfold download
  simp only []
  split <;> rfl

theorem download_fst_processBtnDisabled (endpoint : String) (s : Session) :
    (download endpoint s).1.processBtnDisabled = s.processBtnDisabled := by
  unfold download
  simp only []
  split <;> rfl

theorem downloadSettled_files (format : String) (s : Session) (failure : Option String) :
    (downloadSettled format s failure).files = s.files := by
  cases failure <;> rfl

theorem downloadSettled_isProcessing (format : String) (s : Session) (failure : Option String) :
    (downloadSettled format s failure).isProcessing = s.isProcessing := by
  cases failure <;> rfl

theorem downloadSettled_processBtnDisabled (format : String) (s : Session)
    (failure : Option String) :
    (downloadSettled format s failure).processBtnDisabled = s.processBtnDisabled := by
  cases failure <;> rfl
theorem handleFiles_guard (s : Session) (newFiles : List PendingFile) :
    (handleFiles s newFiles).isProcessing = s.isProcessing
    ∧ (s.isProcessing = true → s.processBtnDisabled = true →
        (handleFiles s newFiles).processBtnDisabled = true) := by
  obtain ⟨t, ht⟩ := handleFiles_shape s newFiles
  rw [ht]
  split
  · exact ⟨rfl, fun _ h => h⟩
  · exact ⟨rfl, fun h _ => h⟩

theorem processFiles_of_pending (s : Session) (h : s.files.length ≠ 0) :
    ∃ request, processFiles s =
      (showLoading (updateProcessButton { s with isProcessing := true }), some request) := by
  unfold processFiles
  rw [if_neg h]
  exact ⟨_, rfl⟩

theorem step_guarded (p : Page) (e : Event)
    (hbtn : p.session.isProcessing = true → p.session.processBtnDisabled = true)
    (hfly : p.inFlight.length = if p.session.isProcessing then 1 else 0) :
    ((step p e).session.isProcessing = true → (step p e).session.processBtnDisabled = true)
    ∧ (step p e).inFlight.length = if (step p e).session.isProcessing then 1 else 0 := by
  cases e with
  | filesChosen newFiles =>
    have h := handleFiles_guard p.session newFiles
    simp only [step, h.1]
    exact ⟨fun hp => h.2 hp (hbtn hp), hfly⟩
  | removeClicked index =>
    refine ⟨fun hp => ?_, ?_⟩
    · have hp2 : p.session.isProcessing = true := by
        simpa [step, removeFile] using hp
      simp [step, removeFile, hp2]
    · simpa [step, removeFile] using hfly
  | clearClicked =>
    simp only [step, clearAll, showToast_isProcessing, showToast_processBtnDisabled]
    refine ⟨fun hp => ?_, ?_⟩
    · have hp2 : p.session.isProcessing = true := by
        simpa [updateProcessButton, updateFilesList] using hp
      simp [updateProcessButton, updateFilesList, hp2]
    · simpa [updateProcessButton, updateFilesList] using hfly
  | processClicked =>
    by_cases hd : p.session.processBtnDisabled = true
    · have hs : step p .processClicked = p := by simp [step, hd]
      rw [hs]
      exact ⟨hbtn, hfly⟩
    · have hnp : p.session.isProcessing = false := by
        cases hp : p.session.isProcessing
        · rfl
        · exact absurd (hbtn hp) hd
      have hnil : p.inFlight = [] := by
        rw [hnp] at hfly
        exact List.length_eq_zero.mp (by simpa using hfly)
      by_cases hl : p.session.files.length = 0
      · have hs : step p .processClicked = p := by simp [step, hd, processFiles, hl]
        rw [hs]
        exact ⟨hbtn, hfly⟩
      · obtain ⟨request, hreq⟩ := processFiles_of_pending p.session hl
        have hs : step p .processClicked =
            { session := showLoading (updateProcessButton { p.session with isProcessing := true }),
              inFlight := p.inFlight ++ [request] } := by
          simp [step, hd, hreq]
        rw [hs]
        simp [hnil, showLoading, updateProcessButton]
  | submissionSettled settled =>
    obtain ⟨session, inFlight⟩ := p
    cases inFlight with
    | nil => exact ⟨hbtn, hfly⟩
    | cons request rest =>
      simp only [step, processFilesResume_isProcessing]
      refine ⟨fun h => by simp at h, ?_⟩
      by_cases hp : session.isProcessing = true
      · simp [hp] at hfly
        simp [hfly]
      · simp [hp] at hfly
  | modelSelected model => exact ⟨hbtn, hfly⟩
  | csvClicked =>
    simp only [step, downloadCSV, download_fst_isProcessing, download_fst_processBtnDisabled]
    exact ⟨hbtn, hfly⟩
  | excelClicked =>
    simp only [step, downloadExcel, download_fst_isProcessing, download_fst_processBtnDisabled]
    exact ⟨hbtn, hfly⟩
  | exportSettled format failure =>
    simp only [step, downloadSettled_isProcessing, downloadSettled_processBtnDisabled]
    exact ⟨hbtn, hfly⟩

theorem run_guarded (events : List Event) (p : Page)
    (hbtn : p.session.isProcessing = true → p.session.processBtnDisabled = true)
    (hfly : p.inFlight.length = if p.session.isProcessing then 1 else 0) :
    ((run p events).session.isProcessing = true → (run p events).session.processBtnDisabled = true)
    ∧ (run p events).inFlight.length = if (run p events).session.isProcessing then 1 else 0 := by
  induction events generalizing p with
  | nil => exact ⟨hbtn, hfly⟩
  | cons e rest ih =>
    have h := step_guarded p e hbtn hfly
    exact ih (step p e) h.1 h.2

/-- Claim C6, as amended. In every page reachable from the freshly loaded one by
the events of `step`, whenever `isProcessing` is true the process button is
disabled, so a click on it does not reach `processFiles` and changes nothing;
at most one submission is in flight, and one is in flight exactly when
`isProcessing` is true. -/
theorem submission_guarded_by_button (btnDisabled : Bool) (model : String) (events : List Event) :
    ((run (Page.initial btnDisabled model) events).session.isProcessing = true →
      (run (Page.initial btnDisabled model) events).session.processBtnDisabled = true
      ∧ step (run (Page.initial btnDisabled model) events) .processClicked
          = run (Page.initial btnDisabled model) events)
    ∧ (run (Page.initial btnDisabled model) events).inFlight.length ≤ 1
    ∧ ((run (Page.initial btnDisabled model) events).session.isProcessing = true ↔
        (run (Page.initial btnDisabled model) events).inFlight.length = 1) := by
  have h := run_guarded events (Page.initial btnDisabled model)
    (fun hp => by simp [Page.initial, Session.initial] at hp) (by rfl)
  refine ⟨fun hp => ⟨h.1 hp, by simp [step, h.1 hp]⟩, ?_, ?_⟩
  · rw [h.2]; split <;> omega
  · rw [h.2]; cases (run (Page.initial btnDisabled model) events).session.isProcessing <;> simp

/-- Claim C6 as stated fails: on the page reached by choosing one file and
clicking the process button, a submission is in flight and `isProcessing` is
true, yet `processFiles`, called on that session, issues a request again: the
function does not read the flag. -/
theorem processFiles_ignores_flag :
    pageInFlight.session.isProcessing = true
    ∧ pageInFlight.session.files = [card2MB]
    ∧ pageInFlight.inFlight.length = 1
    ∧ (processFiles pageInFlight.session).2 =
        some { url := "http://localhost:5000/api/single", method := "POST",
               body := .formData [("image", .file card2MB), ("model", .text "auto")] } := by
  decide

/-- Claim C6, as amended, on the page reached by choosing one file and clicking
the process button: the button is disabled and a second click changes nothing. -/
theorem submission_guarded_by_button_witness :
    (run (Page.initial false "auto")
        [.filesChosen [card2MB], .processClicked]).session.isProcessing = true
    ∧ (run (Page.initial false "auto")
        [.filesChosen [card2MB], .processClicked]).session.processBtnDisabled = true
    ∧ step (run (Page.initial false "auto") [.filesChosen [card2MB], .processClicked])
        .processClicked
        = run (Page.initial false "auto") [.filesChosen [card2MB], .processClicked] :=
  ⟨by decide,
   (submission_guarded_by_button false "auto" [.filesChosen [card2MB], .processClicked]).1
     (by decide)⟩

theorem removeAt_sublist (index : Nat) (files : List PendingFile) (i : Nat) :
    (removeAt index files i).Sublist files := by
  induction files generalizing i with
  | nil => exact List.Sublist.refl _
  | cons f fs ih =>
    unfold removeAt
    split
    · exact (ih (i + 1)).cons₂ f
    · exact (ih (i + 1)).cons f

theorem step_files (p : Page) (e : Event) :
    (step p e).session.files =
      match e with
      | .filesChosen newFiles => p.session.files ++ newValidFiles p.session.files newFiles
      | .removeClicked index => removeAt index p.session.files 0
      | .clearClicked => []
      | _ => p.session.files := by
  cases e with
  | filesChosen newFiles => exact handleFiles_files p.session newFiles
  | removeClicked index => simp [step, removeFile]
  | clearClicked => simp [step, clearAll]
  | processClicked =>
    simp only [step]
    split
    · rfl
    · have h := processFiles_files p.session
      split <;> rename_i heq <;> rw [heq] at h <;> exact h
  | submissionSettled settled =>
    obtain ⟨session, inFlight⟩ := p
    cases inFlight with
    | nil => rfl
    | cons request rest => exact processFilesResume_files session settled
  | modelSelected model => rfl
  | csvClicked => exact download_fst_files _ _
  | excelClicked => exact download_fst_files _ _
  | exportSettled format failure => exact downloadSettled_files _ _ _

/-- Uniqueness of (name, size) survives every event as long as no single batch
holds two files of the same name and size: the duplicate test of `handleFiles`
compares a new file with the pending files only, not with the rest of its batch. -/
theorem pending_keys_distinct_of_distinct_batches (events : List Event) (p : Page)
    (hbatch : ∀ newFiles, Event.filesChosen newFiles ∈ events →
      newFiles.Pairwise (fun a b => ¬ (a.name = b.name ∧ a.size = b.size)))
    (hp : p.session.files.Pairwise (fun a b => ¬ (a.name = b.name ∧ a.size = b.size))) :
    (run p events).session.files.Pairwise (fun a b => ¬ (a.name = b.name ∧ a.size = b.size)) := by
  induction events generalizing p with
  | nil => exact hp
  | cons e rest ih =>
    apply ih (step p e) (fun newFiles h => hbatch newFiles (List.mem_cons_of_mem _ h))
    rw [step_files]
    cases e with
    | filesChosen newFiles =>
      simp only []
      rw [List.pairwise_append]
      refine ⟨hp, ?_, ?_⟩
      · rw [newValidFiles_eq]
        exact (hbatch newFiles (List.mem_cons_self _ _)).sublist (List.filter_sublist _)
      · intro a ha b hb hab
        rw [newValidFiles_eq, List.mem_filter] at hb
        have hdup : isDuplicate p.session.files b = true :=
          (isDuplicate_iff _ _).mpr ⟨a, ha, hab⟩
        simp [hdup] at hb
    | removeClicked index => exact hp.sublist (removeAt_sublist _ _ _)
    | clearClicked => exact List.Pairwise.nil
    | processClicked => exact hp
    | submissionSettled settled => exact hp
    | modelSelected model => exact hp
    | csvClicked => exact hp
    | excelClicked => exact hp
    | exportSettled format failure => exact hp

/-- Claim C4 at its failing input: from the freshly loaded page, one batch that
holds two files of the same name and size puts both in the pending list. -/
theorem twins_of_one_batch_both_pending :
    (run (Page.initial true "auto") [.filesChosen [card2MB, card2MB]]).session.files
      = [card2MB, card2MB]
    ∧ ¬ (run (Page.initial true "auto") [.filesChosen [card2MB, card2MB]]).session.files.Pairwise
        (fun a b => ¬ (a.name = b.name ∧ a.size = b.size)) := by
  decide

theorem appendImages_from (files : List PendingFile) (acc : List (String × FormValue)) :
    files.foldl (fun formData file => formData ++ [("images", FormValue.file file)]) acc =
      acc ++ files.map (fun file => ("images", FormValue.file file)) := by
  induction files generalizing acc with
  | nil => simp
  | cons file rest ih => rw [List.foldl_cons, ih]; simp

theorem appendImages_eq (files : List PendingFile) :
    appendImages files = files.map (fun file => ("images", FormValue.file file)) := by
  simp [appendImages, appendImages_from]

/-- Claim C5. With no pending file `processFiles` returns the session as it is
and issues no request; with exactly one it posts to `/api/single` a form whose
field `image` is that file; with two or more it posts to `/api/batch` a form
with one field `images` per pending file, in pending order. In both cases the
form ends with the field `model`. -/
theorem request_determined_by_pending_count (s : Session) :
    (s.files = [] → processFiles s = (s, none))
    ∧ (∀ f, s.files = [f] →
        (processFiles s).2 =
          some { url := "http://localhost:5000/api/single", method := "POST",
                 body := .formData [("image", .file f), ("model", .text s.modelValue)] })
    ∧ (2 ≤ s.files.length →
        (processFiles s).2 =
          some { url := "http://localhost:5000/api/batch", method := "POST",
                 body := .formData
                   (s.files.map (fun f => ("images", FormValue.file f)) ++
                     [("model", .text s.modelValue)]) }) := by
  refine ⟨fun h => ?_, fun f h => ?_, fun h => ?_⟩
  · simp [processFiles, h]
  · simp [processFiles, h, showLoading, updateProcessButton, API_BASE_URL]
  · have h0 : s.files.length ≠ 0 := by omega
    have h1 : s.files.length ≠ 1 := by omega
    simp [processFiles, h0, h1, showLoading, updateProcessButton, API_BASE_URL, appendImages_eq]

/-- Claim C5 on the session with the single pending file `card2MB`. -/
theorem request_determined_by_pending_count_witness :
    (handleFiles (Session.initial true "auto") [card2MB]).files = [card2MB]
    ∧ (processFiles (handleFiles (Session.initial true "auto") [card2MB])).2 =
        some { url := "http://localhost:5000/api/single", method := "POST",
               body := .formData [("image", .file card2MB), ("model", .text "auto")] } :=
  ⟨by decide,
   (request_determined_by_pending_count
      (handleFiles (Session.initial true "auto") [card2MB])).2.1 card2MB (by decide)⟩

/-- Claim C7. The history after `displayResults` is the history before when the
response has `success` false, and the history before followed by the results of
the response (its `results` when present, otherwise the response alone), in
response order, when `success` is true; the history before is a prefix of the
history after in both cases, also when rendering raises an exception. -/
theorem history_append_only (s : Session) (data : Response) :
    (data.self.success = false → (displayResults s data).session.allResults = s.allResults)
    ∧ (data.self.success = true →
        (displayResults s data).session.allResults =
          s.allResults ++
            (match data.results with
              | some results => results
              | none => [data.self]))
    ∧ s.allResults <+: (displayResults s data).session.allResults := by
  have hfalse : data.self.success = false →
      (displayResults s data).session.allResults = s.allResults := by
    intro h
    simp [displayResults, h, Outcome.session]
  have htrue : data.self.success = true →
      (displayResults s data).session.allResults = s.allResults ++ resultsArray data := by
    intro h
    unfold displayResults
    simp only [h, Bool.not_true, Bool.false_eq_true, if_false]
    split
    · rfl
    · split <;> rfl
  refine ⟨hfalse, fun h => (htrue h).trans (by unfold resultsArray; rfl), ?_⟩
  cases h : data.self.success
  · rw [hfalse h]
  · rw [htrue h]
    exact List.prefix_append _ _

/-- Claim C7 on a batch response with one successful and one failed result,
received when the history already holds one result. -/
theorem history_append_only_witness :
    (displayResults sessionWithHistory batchResponse).session.allResults =
      [cardResult, cardResult, failedResult] :=
  ((history_append_only sessionWithHistory batchResponse).2.1 (by decide)).trans (by decide)
theorem addTokens_of_data (results : List ExtractionResult) (tokensUsed : Nat)
    (hdata : ∀ r ∈ results, r.success = true → r.data ≠ none) :
    addTokens results tokensUsed =
      (tokensUsed +
        ((results.filter (fun r => r.success)).filterMap
          (fun r => r.data.bind (fun d => d.tokens))).sum, false) := by
  induction results generalizing tokensUsed with
  | nil => simp [addTokens]
  | cons r rest ih =>
    have hrest : ∀ r ∈ rest, r.success = true → r.data ≠ none :=
      fun x hx => hdata x (List.mem_cons_of_mem _ hx)
    unfold addTokens
    cases hs : r.success with
    | false => simp [ih _ hrest, List.filter_cons, hs]
    | true =>
      cases hd : r.data with
      | none => exact absurd hd (hdata r (List.mem_cons_self _ _) hs)
      | some d =>
        cases ht : d.tokens with
        | none => simp [ih _ hrest, List.filter_cons, hs, hd, ht, truthyNumber]
        | some n =>
          by_cases hn : n = 0
          · simp [ih _ hrest, List.filter_cons, hs, hd, ht, truthyNumber, hn]
          · simp [ih _ hrest, List.filter_cons, hs, hd, ht, truthyNumber, hn, Nat.add_assoc]

theorem renderCards_of_data (results : List ExtractionResult) (index : Nat)
    (hdata : ∀ r ∈ results, r.success = true → r.data ≠ none) :
    ∃ cards, renderCards results index = some cards := by
  induction results generalizing index with
  | nil => exact ⟨[], rfl⟩
  | cons r rest ih =>
    obtain ⟨cards, hcards⟩ := ih (index + 1) (fun x hx => hdata x (List.mem_cons_of_mem _ hx))
    have hcard : ∃ card, renderCard r index = some card := by
      unfold renderCard
      cases hs : r.success with
      | false => exact ⟨_, rfl⟩
      | true =>
        cases hd : r.data with
        | none => exact absurd hd (hdata r (List.mem_cons_self _ _) hs)
        | some d => exact ⟨_, rfl⟩
    obtain ⟨card, hcard⟩ := hcard
    exact ⟨card :: cards, by simp [renderCards, hcard, hcards]⟩

theorem displayResults_of_data (s : Session) (data : Response)
    (hdata : ∀ r ∈ resultsArray data, r.success = true → r.data ≠ none) :
    ∃ s1, displayResults s data = .returned s1 ∧ s1.stats = s.stats := by
  obtain ⟨cards, hcards⟩ := renderCards_of_data (resultsArray data) 0 hdata
  unfold displayResults
  split
  · exact ⟨_, rfl, rfl⟩
  · simp only [hcards]
    split <;> exact ⟨_, rfl, rfl⟩

theorem updateStats_of_data (s : Session) (data : Response)
    (hdata : ∀ r ∈ resultsArray data, r.success = true → r.data ≠ none) :
    updateStats s data =
      .returned
        { s with
          stats :=
            { totalCards := s.stats.totalCards + (resultsArray data).length
              successfulCards :=
                s.stats.successfulCards + ((resultsArray data).filter (fun r => r.success)).length
              tokensUsed :=
                s.stats.tokensUsed +
                  (((resultsArray data).filter (fun r => r.success)).filterMap
                    (fun r => r.data.bind (fun d => d.tokens))).sum } } := by
  unfold updateStats
  simp only [addTokens_of_data _ _ hdata]
  rfl

theorem resultsArray_of_results (data : Response) (results : List ExtractionResult)
    (hresults : data.results = some results ∨ (data.results = none ∧ results = [data.self])) :
    resultsArray data = results := by
  unfold resultsArray
  rcases hresults with h | ⟨h, rfl⟩ <;> rw [h]

/-- Claim C8. Let `results` be the per-file results a response carries: its
`results` list when it has one, and otherwise the response itself as the only
result (the answer of `/api/single`). When every successful one of them carries
`data`, `updateStats` adds to `totalCards` the number of these results, to
`successfulCards` the number of successful ones, and to `tokensUsed` the sum of
`data.tokens` over the successful results that report a token count (failed
results add nothing); the continuation of `processFiles` leaves `stats` with
exactly these values. -/
theorem stats_after_submission (s : Session) (data : Response)
    (results : List ExtractionResult)
    (hresults : data.results = some results ∨ (data.results = none ∧ results = [data.self]))
    (hdata : ∀ r ∈ results, r.success = true → r.data ≠ none) :
    (updateStats s data).session.stats =
      { totalCards := s.stats.totalCards + results.length
        successfulCards := s.stats.successfulCards + results.countP (fun r => r.success)
        tokensUsed :=
          s.stats.tokensUsed +
            ((results.filter (fun r => r.success)).filterMap
              (fun r => r.data.bind (fun d => d.tokens))).sum }
    ∧ (processFilesResume s (.responded data)).stats =
      { totalCards := s.stats.totalCards + results.length
        successfulCards := s.stats.successfulCards + results.countP (fun r => r.success)
        tokensUsed :=
          s.stats.tokensUsed +
            ((results.filter (fun r => r.success)).filterMap
              (fun r => r.data.bind (fun d => d.tokens))).sum } := by
  have hnorm := resultsArray_of_results data results hresults
  have hdata2 : ∀ r ∈ resultsArray data, r.success = true → r.data ≠ none := by
    rw [hnorm]; exact hdata
  have hfirst : (updateStats s data).session.stats =
      { totalCards := s.stats.totalCards + results.length
        successfulCards := s.stats.successfulCards + results.countP (fun r => r.success)
        tokensUsed :=
          s.stats.tokensUsed +
            ((results.filter (fun r => r.success)).filterMap
              (fun r => r.data.bind (fun d => d.tokens))).sum } := by
    rw [updateStats_of_data s data hdata2, List.countP_eq_length_filter, hnorm]
    rfl
  refine ⟨hfirst, ?_⟩
  rw [← hfirst]
  obtain ⟨s1, h1, hstats⟩ := displayResults_of_data s data hdata2
  have h2 := updateStats_of_data s1 data hdata2
  rw [updateStats_of_data s data hdata2]
  unfold processFilesResume processFilesFinally
  simp only [h1, h2, hideLoading, updateProcessButton_stats, Outcome.session, hstats]

/-- Claim C8 on a batch response with one successful result of 120 tokens and
one failed result (two cards, one success, 120 tokens), and on a single
response of 120 tokens (one card, one success, 120 tokens), also when it comes
after a first submission. -/
theorem stats_after_submission_witness :
    (updateStats (Session.initial true "auto") batchResponse).session.stats =
      { totalCards := 2, successfulCards := 1, tokensUsed := 120 }
    ∧ (processFilesResume (Session.initial true "auto") (.responded batchResponse)).stats =
      { totalCards := 2, successfulCards := 1, tokensUsed := 120 }
    ∧ (updateStats (Session.initial true "auto") singleResponse).session.stats =
      { totalCards := 1, successfulCards := 1, tokensUsed := 120 }
    ∧ (processFilesResume sessionAfterSubmission (.responded singleResponse)).stats =
      { totalCards := 2, successfulCards := 2, tokensUsed := 240 } :=
  have hbatch := stats_after_submission (Session.initial true "auto") batchResponse
    [cardResult, failedResult] (Or.inl rfl) (by decide)
  have hsingle := stats_after_submission (Session.initial true "auto") singleResponse
    [cardResult] (Or.inr ⟨rfl, rfl⟩) (by decide)
  have hagain := stats_after_submission sessionAfterSubmission singleResponse
    [cardResult] (Or.inr ⟨rfl, rfl⟩) (by decide)
  ⟨hbatch.1.trans (by decide), hbatch.2.trans (by decide), hsingle.1.trans (by decide),
   hagain.2.trans (by decide)⟩

theorem addTokens_ge (results : List ExtractionResult) (tokensUsed : Nat) :
    tokensUsed ≤ (addTokens results tokensUsed).1 := by
  induction results generalizing tokensUsed with
  | nil => simp [addTokens]
  | cons r rest ih =>
    unfold addTokens
    split
    · split
      · exact Nat.le_refl _
      · split
        · exact Nat.le_trans (Nat.le_add_right _ _) (ih _)
        · exact ih _
    · exact ih _

/-- The three counters of `stats`, compared one by one. -/
theorem updateStats_stats_ge (s : Session) (data : Response) :
    s.stats.totalCards ≤ (updateStats s data).session.stats.totalCards
    ∧ s.stats.successfulCards ≤ (updateStats s data).session.stats.successfulCards
    ∧ s.stats.tokensUsed ≤ (updateStats s data).session.stats.tokensUsed := by
  unfold updateStats
  simp only []
  split <;>
    exact ⟨Nat.le_add_right _ _, Nat.le_add_right _ _, addTokens_ge _ _⟩

theorem processFilesResume_stats (s : Session) (settled : FetchOutcome) :
    (processFilesResume s settled).stats = s.stats
    ∨ ∃ data, (processFilesResume s settled).stats = (updateStats s data).session.stats := by
  unfold processFilesResume processFilesFinally
  simp only [hideLoading, updateProcessButton_stats]
  cases settled with
  | failed message => exact Or.inl rfl
  | responded data =>
    simp only []
    have h1 := displayResults_stats s data
    cases hd : displayResults s data with
    | threw s1 message =>
      rw [hd] at h1
      exact Or.inl (by simpa [Outcome.session] using h1)
    | returned s1 =>
      rw [hd] at h1
      simp only [Outcome.session] at h1
      simp only []
      have hu : (updateStats s1 data).session.stats = (updateStats s data).session.stats := by
        unfold updateStats
        simp only [h1]
        split <;> rfl
      refine Or.inr ⟨data, ?_⟩
      rw [← hu]
      cases updateStats s1 data <;> rfl

theorem step_stats_ge (p : Page) (e : Event) :
    p.session.stats.totalCards ≤ (step p e).session.stats.totalCards
    ∧ p.session.stats.successfulCards ≤ (step p e).session.stats.successfulCards
    ∧ p.session.stats.tokensUsed ≤ (step p e).session.stats.tokensUsed := by
  have hsame : (step p e).session.stats = p.session.stats →
      p.session.stats.totalCards ≤ (step p e).session.stats.totalCards
      ∧ p.session.stats.successfulCards ≤ (step p e).session.stats.successfulCards
      ∧ p.session.stats.tokensUsed ≤ (step p e).session.stats.tokensUsed := by
    intro h
    rw [h]
    exact ⟨Nat.le_refl _, Nat.le_refl _, Nat.le_refl _⟩
  cases e with
  | filesChosen newFiles =>
    apply hsame
    obtain ⟨t, ht⟩ := handleFiles_shape p.session newFiles
    simp only [step, ht]
    split <;> rfl
  | removeClicked index => exact hsame (by simp [step, removeFile])
  | clearClicked => exact hsame (by simp [step, clearAll])
  | processClicked =>
    apply hsame
    simp only [step]
    split
    · rfl
    · have h : (processFiles p.session).1.stats = p.session.stats := by
        unfold processFiles
        split <;> rfl
      split <;> rename_i heq <;> rw [heq] at h <;> exact h
  | submissionSettled settled =>
    obtain ⟨session, inFlight⟩ := p
    cases inFlight with
    | nil => exact hsame rfl
    | cons request rest =>
      rcases processFilesResume_stats session settled with h | ⟨data, h⟩
      · exact hsame h
      · simp only [step, h]
        exact updateStats_stats_ge session data
  | modelSelected model => exact hsame rfl
  | csvClicked =>
    apply hsame
    simp only [step, downloadCSV, download]
    split <;> rfl
  | excelClicked =>
    apply hsame
    simp only [step, downloadExcel, download]
    split <;> rfl
  | exportSettled format failure =>
    apply hsame
    cases failure <;> rfl

theorem run_stats_ge (events : List Event) (p : Page) :
    p.session.stats.totalCards ≤ (run p events).session.stats.totalCards
    ∧ p.session.stats.successfulCards ≤ (run p events).session.stats.successfulCards
    ∧ p.session.stats.tokensUsed ≤ (run p events).session.stats.tokensUsed := by
  induction events generalizing p with
  | nil => exact ⟨Nat.le_refl _, Nat.le_refl _, Nat.le_refl _⟩
  | cons e rest ih =>
    have h1 := step_stats_ge p e
    have h2 := ih (step p e)
    exact ⟨Nat.le_trans h1.1 h2.1, Nat.le_trans h1.2.1 h2.2.1, Nat.le_trans h1.2.2 h2.2.2⟩

/-- Claim C9, as amended. After `clearAll` the pending list is empty, the
result history is empty and the results and download sections are hidden, while
`stats` is what it was before; and along any sequence of events of the page none
of `totalCards`, `successfulCards` and `tokensUsed` ever gets smaller, so nothing
resets them. -/
theorem clearAll_resets_files_and_history (s : Session) (p : Page) (events : List Event) :
    (clearAll s).files = []
    ∧ (clearAll s).allResults = []
    ∧ (clearAll s).stats = s.stats
    ∧ (clearAll s).resultsSectionShown = false
    ∧ (clearAll s).downloadSectionShown = false
    ∧ p.session.stats.totalCards ≤ (run p events).session.stats.totalCards
    ∧ p.session.stats.successfulCards ≤ (run p events).session.stats.successfulCards
    ∧ p.session.stats.tokensUsed ≤ (run p events).session.stats.tokensUsed := by
  refine ⟨?_, ?_, ?_, ?_, ?_, run_stats_ge events p⟩ <;> simp [clearAll, showToast]

/-- Claim C9 as stated fails: after one answered submission of one card,
`clearAll` leaves `totalCards`, `successfulCards` and `tokensUsed` at 1, 1 and
120 instead of 0. -/
theorem clearAll_keeps_stats :
    (run (Page.initial true "auto")
        [.filesChosen [card2MB], .processClicked, .submissionSettled (.responded singleResponse),
         .clearClicked]).session.stats
      = { totalCards := 1, successfulCards := 1, tokensUsed := 120 }
    ∧ ¬ ((clearAll sessionAfterSubmission).files = []
        ∧ (clearAll sessionAfterSubmission).allResults = []
        ∧ (clearAll sessionAfterSubmission).stats
            = { totalCards := 0, successfulCards := 0, tokensUsed := 0 }) := by
  decide

/-- Claim C10. `downloadCSV` and `downloadExcel` export the successful entries
of the history: when no entry has `success` true they show the toast
"No data to export" and issue no request; otherwise they leave the session as
it is and issue one POST, to `/api/download/csv` and `/api/download/excel`
respectively, whose body lists the entries with `success` true in history
order. -/
theorem export_sends_successful_history (s : Session) :
    ((∀ r ∈ s.allResults, r.success = false) →
      downloadCSV s = (showToast s "No data to export" "error", none)
      ∧ downloadExcel s = (showToast s "No data to export" "error", none))
    ∧ ((∃ r ∈ s.allResults, r.success = true) →
      downloadCSV s =
        (s, some { url := "http://localhost:5000/api/download/csv", method := "POST",
                   body := .json (s.allResults.filter (fun r => r.success)) })
      ∧ downloadExcel s =
        (s, some { url := "http://localhost:5000/api/download/excel", method := "POST",
                   body := .json (s.allResults.filter (fun r => r.success)) })) := by
  constructor
  · intro h
    have hnil : s.allResults.filter (fun r => r.success) = [] := by
      rw [List.filter_eq_nil_iff]
      intro r hr
      simp [h r hr]
    simp [downloadCSV, downloadExcel, download, hnil]
  · rintro ⟨r, hr, hs⟩
    have hne : (s.allResults.filter (fun r => r.success)).length ≠ 0 := by
      have : r ∈ s.allResults.filter (fun r => r.success) := List.mem_filter.mpr ⟨hr, hs⟩
      exact fun h0 => by rw [List.length_eq_zero.mp h0] at this; simp at this
    simp [downloadCSV, downloadExcel, download, hne, API_BASE_URL]

/-- Claim C10 on a history of one successful and one failed result: the export
posts the successful one alone. -/
theorem export_sends_successful_history_witness :
    downloadCSV sessionMixedHistory =
      (sessionMixedHistory,
       some { url := "http://localhost:5000/api/download/csv", method := "POST",
              body := .json [cardResult] })
    ∧ (downloadCSV (Session.initial true "auto")).2 = none :=
  ⟨((export_sends_successful_history sessionMixedHistory).2
      ⟨cardResult, by decide, by decide⟩).1.trans (by decide),
   congrArg Prod.snd
     ((export_sends_successful_history (Session.initial true "auto")).1
        (by decide)).1⟩

/-! ## Rendering -/

theorem truthyString_iff (field : Option String) :
    truthyString field = true ↔ ∃ v, field = some v ∧ v ≠ "" := by
  cases field with
  | none => simp [truthyString]
  | some v => simp [truthyString]

theorem stringRow_labels (labelText icon : String) (field : Option String) :
    (stringRow labelText icon field).map (fun row => row.labelText) =
      if truthyString field then [labelText] else [] := by
  unfold stringRow
  split <;> rfl

/-- The labels of the rows of `fieldRows`, piece by piece. -/
theorem fieldRows_labels (d : CardData) :
    (fieldRows d).map (fun row => row.labelText) =
      (if truthyString d.name then ["Name"] else []) ++
      (if truthyString d.title then ["Title"] else []) ++
      (if truthyString d.company then ["Company"] else []) ++
      (if truthyString d.email then ["Email"] else []) ++
      (if ∃ numbers, d.phoneNumbers = some numbers ∧ numbers ≠ [] then ["Phone"] else []) ++
      (if truthyString d.website then ["Website"] else []) ++
      (if truthyString d.address then ["Address"] else []) ++
      (if ∃ n, d.tokens = some n ∧ n ≠ 0 then ["Tokens Used"] else []) := by
  unfold fieldRows
  simp only [List.map_append, stringRow_labels]
  congr 1
  · congr 2
    congr 1
    cases d.phoneNumbers with
    | none => simp
    | some numbers =>
      cases numbers with
      | nil => simp
      | cons a l => simp
  · cases d.tokens with
    | none => simp
    | some n =>
      by_cases hn : n = 0
      · simp [truthyNumber, hn]
      · simp [truthyNumber, hn]

theorem ite_singleton_sublist (c : Prop) [Decidable c] (a : String) :
    (if c then [a] else []).Sublist [a] := by
  split
  · exact List.Sublist.refl _
  · exact List.nil_sublist _

theorem mem_ite_singleton (c : Prop) [Decidable c] (a x : String) :
    x ∈ (if c then [a] else []) ↔ c ∧ x = a := by
  split <;> simp [*]

theorem renderCards_get (results : List ExtractionResult) (start : Nat)
    (cards : List ResultCard) (h : renderCards results start = some cards)
    (i : Nat) (result : ExtractionResult) (hi : results[i]? = some result) :
    cards[i]? = renderCard result (start + i) := by
  induction results generalizing start cards i with
  | nil => simp at hi
  | cons r rest ih =>
    unfold renderCards at h
    cases hc : renderCard r start with
    | none => simp [hc] at h
    | some card =>
      cases hr : renderCards rest (start + 1) with
      | none => simp [hc, hr] at h
      | some tail =>
        simp only [hc, hr, Option.some.injEq] at h
        subst h
        cases i with
        | zero =>
          simp only [List.getElem?_cons_zero, Option.some.injEq] at hi
          subst hi
          simpa using hc.symm
        | succ j =>
          simp only [List.getElem?_cons_succ] at hi
          have := ih (start + 1) tail hr j hi
          simpa [Nat.add_assoc, Nat.add_comm 1 j] using this

theorem displayResults_grid (s : Session) (data : Response)
    (hresponse : data.self.success = true)
    (hwell : ∀ r ∈ resultsArray data, r.success = true → r.data ≠ none) :
    renderCards (resultsArray data) 0 = some (displayResults s data).session.resultsGrid := by
  obtain ⟨cards, hcards⟩ := renderCards_of_data (resultsArray data) 0 hwell
  rw [hcards]
  unfold displayResults
  simp only [hresponse, Bool.not_true, Bool.false_eq_true, if_false, hcards]
  split <;> rfl

/-- Claim C11. In the grid that `displayResults` renders for a successful
response, the card of a successful result at position `index` has as title the
filename (or `Card index+1` when the filename is absent or empty), as badge the
model, and as body field rows only. Their labels follow the fixed order Name,
Title, Company, Email, Phone, Website, Address, Tokens Used, and a label is
there exactly when its field is present and populated: a non-empty string, a
non-empty `phoneNumbers` list, a non-zero token count. With all eight fields
absent there is no field row. -/
theorem rows_follow_populated_fields (s : Session) (data : Response) (index : Nat)
    (result : ExtractionResult) (d : CardData)
    (hresponse : data.self.success = true)
    (hwell : ∀ r ∈ resultsArray data, r.success = true → r.data ≠ none)
    (hindex : (resultsArray data)[index]? = some result)
    (hsuccess : result.success = true) (hdata : result.data = some d) :
    (displayResults s data).session.resultsGrid[index]? =
      some { title :=
               (match result.filename with
                | some v => if v = "" then "Card " ++ toString (index + 1) else v
                | none => "Card " ++ toString (index + 1))
             badge := result.model_used.getD "undefined"
             body := .content (fieldRows d) }
    ∧ ((fieldRows d).map (fun row => row.labelText)).Sublist
        ["Name", "Title", "Company", "Email", "Phone", "Website", "Address", "Tokens Used"]
    ∧ ("Name" ∈ (fieldRows d).map (fun row => row.labelText) ↔ ∃ v, d.name = some v ∧ v ≠ "")
    ∧ ("Title" ∈ (fieldRows d).map (fun row => row.labelText) ↔ ∃ v, d.title = some v ∧ v ≠ "")
    ∧ ("Company" ∈ (fieldRows d).map (fun row => row.labelText) ↔
        ∃ v, d.company = some v ∧ v ≠ "")
    ∧ ("Email" ∈ (fieldRows d).map (fun row => row.labelText) ↔ ∃ v, d.email = some v ∧ v ≠ "")
    ∧ ("Phone" ∈ (fieldRows d).map (fun row => row.labelText) ↔
        ∃ numbers, d.phoneNumbers = some numbers ∧ numbers ≠ [])
    ∧ ("Website" ∈ (fieldRows d).map (fun row => row.labelText) ↔
        ∃ v, d.website = some v ∧ v ≠ "")
    ∧ ("Address" ∈ (fieldRows d).map (fun row => row.labelText) ↔
        ∃ v, d.address = some v ∧ v ≠ "")
    ∧ ("Tokens Used" ∈ (fieldRows d).map (fun row => row.labelText) ↔
        ∃ n, d.tokens = some n ∧ n ≠ 0)
    ∧ (d.name = none → d.title = none → d.company = none → d.email = none →
        d.phoneNumbers = none → d.website = none → d.address = none → d.tokens = none →
        fieldRows d = []) := by
  refine ⟨?_, ?_, ?_, ?_, ?_, ?_, ?_, ?_, ?_, ?_, ?_⟩
  · rw [renderCards_get _ 0 _ (displayResults_grid s data hresponse hwell) index result hindex,
      Nat.zero_add]
    unfold renderCard
    simp only [hsuccess, hdata, if_true]
    cases hf : result.filename with
    | none => cases hm : result.model_used <;> simp [truthyString, interpolate]
    | some v =>
      by_cases hv : v = ""
      · cases hm : result.model_used <;> simp [truthyString, interpolate, hv]
      · cases hm : result.model_used <;> simp [truthyString, interpolate, hv]
  · rw [fieldRows_labels]
    exact (((((((ite_singleton_sublist _ _).append (ite_singleton_sublist _ _)).append
      (ite_singleton_sublist _ _)).append (ite_singleton_sublist _ _)).append
      (ite_singleton_sublist _ _)).append (ite_singleton_sublist _ _)).append
      (ite_singleton_sublist _ _)).append (ite_singleton_sublist _ _)
  all_goals first
    | (rw [fieldRows_labels]
       simp only [List.mem_append, mem_ite_singleton, truthyString_iff]
       simp)
    | (intro h1 h2 h3 h4 h5 h6 h7 h8
       simp [fieldRows, stringRow, truthyString, h1, h2, h3, h4, h5, h6, h7, h8])

/-- Claim C11 on a batch response whose second result is successful with no
filename and every field of `data` absent: its card is titled `Card 2`, carries
the model badge and has no field row. -/
theorem rows_follow_populated_fields_witness :
    (displayResults (Session.initial true "auto") bareBatchResponse).session.resultsGrid[1]? =
      some { title := "Card 2", badge := "nvidia", body := .content [] }
    ∧ fieldRows bareData = [] :=
  have h := rows_follow_populated_fields (Session.initial true "auto") bareBatchResponse 1
    bareResult bareData (by decide) (by decide) (by decide) (by decide) (by decide)
  ⟨h.1.trans (by decide), h.2.2.2.2.2.2.2.2.2.2 rfl rfl rfl rfl rfl rfl rfl rfl⟩

end CardEclipse
